import Mathlib

/-!
Shallow embedding of the size-targeting compression core of
Quantum-File-Forge (src/script.js), together with theorems settling the
frozen claims about its specification.

Conventions of the embedding:
* JavaScript strings are `List Char`; `.length` is `List.length`.
* Byte buffers (Uint8Array / ArrayBuffer contents) are `List ℕ`.
* The JPEG quality parameter is `ℚ` (the decimal literals of the source,
  taken exactly; the control flow of the loops is insensitive to the
  floating-point error of the source because `Math.max(0.05, q - 0.05)`
  clamps at the very double `0.05` that the loop guard compares against).
* External collaborators (PDF.js page rendering, canvas JPEG encoding,
  pdf-lib embedding and saving) are parameters; fallible ones return
  `Except ℕ` where the natural number is an abstract cause identifier.
* Every collaborator invocation is recorded in an event trace so that
  claims about "how often was the rasterizer called" are statable.
* The `while` loop of `compressImageToTarget` is modelled with explicit
  fuel; exhausting every fuel bound models non-termination.
-/

namespace QFF

/-- Byte buffers (the contents of a Blob / Uint8Array / ArrayBuffer). -/
abbrev Bytes := List ℕ

/-- JavaScript strings, modelled as their character lists. -/
abbrev JsStr := List Char

/-- Model of `Math.round(n / 1024)` for a natural byte (or char) count `n`:
round-half-up division by 1024.  Used at src/script.js:214, 222, 311, 347. -/
def roundKB (n : ℕ) : ℕ := (n + 512) / 1024

/-- Value of one base64 alphabet character, `none` for a character outside
the alphabet (JavaScript `atob` throws on those). -/
def b64Val (c : Char) : Option ℕ :=
  if 'A' ≤ c ∧ c ≤ 'Z' then some (c.toNat - 65)
  else if 'a' ≤ c ∧ c ≤ 'z' then some (c.toNat - 71)
  else if '0' ≤ c ∧ c ≤ '9' then some (c.toNat + 4)
  else if c = '+' then some 62
  else if c = '/' then some 63
  else none

/-- Reassemble bytes from a list of 6-bit base64 values: each full group of
four values yields three bytes; a trailing group of two or three values
yields one or two bytes (forgiving base64, as `atob` implements it). -/
def b64Bytes : List ℕ → List ℕ
  | a :: b :: c :: d :: rest =>
      (a * 4 + b / 16) :: ((b % 16) * 16 + c / 4) :: ((c % 4) * 64 + d) :: b64Bytes rest
  | [a, b] => [a * 4 + b / 16]
  | [a, b, c] => [a * 4 + b / 16, (b % 16) * 16 + c / 4]
  | _ => []

/-- Map every character through `b64Val`, failing if any is invalid. -/
def b64Vals : List Char → Option (List ℕ)
  | [] => some []
  | c :: cs =>
      match b64Val c, b64Vals cs with
      | some v, some vs => some (v :: vs)
      | _, _ => none

/-- Strip up to two trailing padding characters from a base64 payload. -/
def stripPad (s : List Char) : List Char :=
  match s.reverse with
  | c1 :: c2 :: rest =>
      if c1 = '=' then (if c2 = '=' then rest.reverse else (c2 :: rest).reverse) else s
  | [c1] => if c1 = '=' then [] else s
  | [] => s

/-- Model of JavaScript `atob`: decode a base64 string to its byte values
(the char codes of the binary string `atob` returns), `none` when `atob`
would throw (invalid character, or a single leftover 6-bit value). -/
def atob (s : JsStr) : Option Bytes :=
  let body := stripPad s
  if body.length % 4 = 1 then none
  else (b64Vals body).map b64Bytes

/-- Split a character list at every comma, the model of
`dataUrl.split(",")` (src/script.js:105). -/
def splitComma : List Char → List (List Char)
  | [] => [[]]
  | c :: cs =>
      if c = ',' then [] :: splitComma cs
      else
        match splitComma cs with
        | seg :: segs => (c :: seg) :: segs
        | [] => [[c]]

/-- Model of `dataURLToBlob` (src/script.js:104-112): split the data URL at
the commas, base64-decode the second segment with `atob`, and return the
blob's bytes (the char codes written into the `Uint8Array`).  `none` models
the exception paths (no second segment, or `atob` throwing); the MIME type
extracted from the first segment only tags the Blob and does not affect the
bytes, so it is not modelled. -/
def dataURLToBlob (dataUrl : JsStr) : Option Bytes :=
  match splitComma dataUrl with
  | _ :: payload :: _ => atob payload
  | _ => none

/-- Collaborator-invocation events recorded by the embedding.  `render`,
`encode` and `embed` carry the 1-based page number of the document loop;
`attempt` records the head of one candidate-quality iteration of
`compressPDFByTargetRendering`; `rasterEncode` records one
`canvas.toDataURL` call of the raster search; `decodeImage` records the
single image decode + `drawImage` of the raster search. -/
inductive Ev
  | decodeImage
  | rasterEncode (q : ℚ)
  | render (page : ℕ)
  | encode (page : ℕ) (q : ℚ)
  | embed (page : ℕ)
  | save
  | attempt (q : ℚ)
deriving DecidableEq, Repr

/-! ## The raster search (`compressImageToTarget`, src/script.js:184-234) -/

/-- Exit modes of the `while (quality >= 0.05)` loop. -/
inductive RasterLoopExit
  | broke (q : ℚ) (result : JsStr)
  | condExit (q : ℚ) (last : Option JsStr)
  | outOfFuel
deriving DecidableEq

/-- The `while (quality >= 0.05)` loop of src/script.js:211-220, with
explicit fuel.  Each iteration encodes at the current quality
(`canvas.toDataURL("image/jpeg", quality)`, abstracted as `enc`), measures
`Math.round(result.length / 1024)`, breaks when the measure is at most the
target, and otherwise continues at `Math.max(0.05, quality - 0.05)`.
`last` carries the previous iteration's `result` (the mutable variable of
the source); `outOfFuel` models a loop that has not finished. -/
def rasterLoop (enc : ℚ → JsStr) (t : ℕ) :
    ℕ → ℚ → Option JsStr → List Ev × RasterLoopExit
  | 0, _, _ => ([], .outOfFuel)
  | fuel + 1, q, last =>
      if (1 : ℚ)/20 ≤ q then
        let result := enc q
        if roundKB result.length ≤ t then ([Ev.rasterEncode q], .broke q result)
        else
          match rasterLoop enc t fuel (max ((1 : ℚ)/20) (q - 1/20)) (some result) with
          | (evs, ex) => (Ev.rasterEncode q :: evs, ex)
      else ([], .condExit q last)

/-- Outcomes of `compressImageToTarget`. -/
inductive RasterResult
  | configError
  | download (blob : Bytes) (sizeKB : ℕ) (targetMet : Bool) (q : ℚ)
  | blobError
  | crash
  | noTermination
deriving DecidableEq

/-- Post-loop delivery of src/script.js:222-229: recompute the final size,
set the warning/success flag, convert the data URL to a blob and download
it.  `blobError` models `dataURLToBlob` throwing inside the outer `try`. -/
def rasterDeliver (t : ℕ) (q : ℚ) (result : JsStr) : RasterResult :=
  match dataURLToBlob result with
  | some blob => .download blob (roundKB result.length) (decide (roundKB result.length ≤ t)) q
  | none => .blobError

/-- Model of `compressImageToTarget` (src/script.js:184-234), for a run in
which an image file is selected.  `targetKB` is the parsed number input
(`none` for NaN; `Number("")` is `0`, which the guard also rejects).  The
guard of line 189 rejects a missing or too-small target before the file is
read, decoded, or drawn; then the image is decoded and drawn once
(`Ev.decodeImage`) and the quality loop runs with the given fuel. -/
def compressImageToTarget (enc : ℚ → JsStr) (targetKB : Option ℕ) (fuel : ℕ) :
    List Ev × RasterResult :=
  match targetKB with
  | none => ([], .configError)
  | some t =>
      if t < 10 then ([], .configError)
      else
        match rasterLoop enc t fuel (19/20) none with
        | (evs, .outOfFuel) => (Ev.decodeImage :: evs, .noTermination)
        | (evs, .broke q result) => (Ev.decodeImage :: evs, rasterDeliver t q result)
        | (evs, .condExit q last) =>
            (Ev.decodeImage :: evs,
              match last with
              | some result => rasterDeliver t q result
              | none => .crash)

/-! ## The document pipeline (src/script.js:240-365) -/

/-- One page of the loaded source PDF: its nominal dimensions and an
abstract content identifier. -/
structure PdfPage where
  width : ℚ
  height : ℚ
  content : ℕ
deriving DecidableEq

/-- A rendered page: the viewport dimensions the canvas was set to
(`page.getViewport({scale: 2.0})`, src/script.js:259-263) and an abstract
identifier of the rendered pixels. -/
structure PixelBuffer where
  width : ℚ
  height : ℚ
  pix : ℕ
deriving DecidableEq

/-- One page of the assembled output document: the `addPage` dimensions,
the embedded JPEG, and the `drawImage` rectangle (src/script.js:282-290). -/
structure OutPage where
  width : ℚ
  height : ℚ
  image : Bytes
  drawX : ℚ
  drawY : ℚ
  drawW : ℚ
  drawH : ℚ
deriving DecidableEq

/-- The external collaborators of the document pipeline, each fallible
with an abstract cause identifier:
* `renderPage p scale` — PDF.js `getPage` + `getViewport({scale})` +
  `page.render` into the canvas (src/script.js:257-270);
* `encodeJpeg pix q` — `canvas.toDataURL('image/jpeg', q)` followed by the
  `fetch(dataUrl).arrayBuffer()` decode to raw JPEG bytes
  (src/script.js:273-276);
* `embedJpg bytes` — `pdfDocLib.embedJpg(jpegBytes)` (src/script.js:279),
  modelled as returning the bytes the image reference wraps;
* `save pages` — `pdfDocLib.save()` on a document holding `pages`
  (src/script.js:293). -/
structure Collab where
  renderPage : PdfPage → ℚ → Except ℕ PixelBuffer
  encodeJpeg : PixelBuffer → ℚ → Except ℕ Bytes
  embedJpg : Bytes → Except ℕ Bytes
  save : List OutPage → Except ℕ Bytes

/-- A collaborator bundle none of whose operations can fail. -/
def pureCollab (r : PdfPage → ℚ → PixelBuffer) (e : PixelBuffer → ℚ → Bytes)
    (m : Bytes → Bytes) (s : List OutPage → Bytes) : Collab where
  renderPage := fun p sc => .ok (r p sc)
  encodeJpeg := fun px q => .ok (e px q)
  embedJpg := fun b => .ok (m b)
  save := fun ps => .ok (s ps)

/-- Body of one iteration of the page loop of
`performPdfRenderingCompression` (src/script.js:254-291): render page `i`
at scale 2.0, encode the canvas as JPEG at `q`, embed the JPEG, and build
the output page with the viewport dimensions and a full-bleed `drawImage`
rectangle.  Returns the events of this iteration and the page, or the
first collaborator failure. -/
def processPage (c : Collab) (q : ℚ) (i : ℕ) (p : PdfPage) :
    List Ev × Except ℕ OutPage :=
  match c.renderPage p 2 with
  | .error e => ([Ev.render i], .error e)
  | .ok pix =>
      match c.encodeJpeg pix q with
      | .error e => ([Ev.render i, Ev.encode i q], .error e)
      | .ok bytes =>
          match c.embedJpg bytes with
          | .error e => ([Ev.render i, Ev.encode i q, Ev.embed i], .error e)
          | .ok ref =>
              ([Ev.render i, Ev.encode i q, Ev.embed i],
                .ok { width := pix.width, height := pix.height, image := ref,
                      drawX := 0, drawY := 0, drawW := pix.width, drawH := pix.height })

/-- The page loop of `performPdfRenderingCompression`
(`for (let i = 1; i <= totalPages; i++)`, src/script.js:254):
process the remaining pages starting at 1-based index `i`, accumulating
the output pages in order; a collaborator failure aborts the loop. -/
def buildPages (c : Collab) (q : ℚ) : ℕ → List PdfPage → List Ev × Except ℕ (List OutPage)
  | _, [] => ([], .ok [])
  | i, p :: rest =>
      match processPage c q i p with
      | (evs, .error e) => (evs, .error e)
      | (evs, .ok op) =>
          match buildPages c q (i + 1) rest with
          | (evs2, r) => (evs ++ evs2, r.map fun ops => op :: ops)

/-- Model of `performPdfRenderingCompression` (src/script.js:240-294):
run the page loop over the whole document, then serialize the assembled
document with `pdfDocLib.save()`. -/
def performPdfRenderingCompression (c : Collab) (doc : List PdfPage) (q : ℚ) :
    List Ev × Except ℕ Bytes :=
  match buildPages c q 1 doc with
  | (evs, .error e) => (evs, .error e)
  | (evs, .ok pages) => (evs ++ [Ev.save], c.save pages)

/-- Outcomes of `compressPDFByRenderingQuality` (mode 1). -/
inductive PdfQualResult
  | success (bytes : Bytes) (sizeKB : ℕ)
  | failure (e : ℕ)
deriving DecidableEq

/-- Model of `compressPDFByRenderingQuality` (src/script.js:299-320), for
a run in which a PDF file is selected: run the fixed-quality compression
inside a `try`; on success measure and download the bytes, on a
collaborator failure report the error and download nothing. -/
def compressPDFByRenderingQuality (c : Collab) (doc : List PdfPage) (q : ℚ) :
    List Ev × PdfQualResult :=
  match performPdfRenderingCompression c doc q with
  | (evs, .error e) => (evs, .failure e)
  | (evs, .ok b) => (evs, .success b (roundKB b.length))

/-- Outcomes of `compressPDFByTargetRendering` (mode 2).  `crash` models
reading `byteLength` of an undefined `compressedBytes` after a loop over
an empty candidate list; it is unreachable for the literal list of the
source. -/
inductive PdfTargetResult
  | configError
  | metDownload (bytes : Bytes) (q : ℚ) (sizeKB : ℕ)
  | notMetDownload (bytes : Bytes) (sizeKB : ℕ)
  | failure (e : ℕ)
  | crash
deriving DecidableEq

/-- The candidate-quality loop of `compressPDFByTargetRendering`
(`for (const quality of qualities)`, src/script.js:343-355): for each
candidate, rebuild the whole document at that quality, measure it, stop
and download on the first candidate meeting the target; a collaborator
failure escapes to the `catch` (src/script.js:361-364), which downloads
nothing; after an exhausted loop the last build is downloaded
(src/script.js:357-359).  `prev` carries the bytes and size of the last
completed build (the mutable `compressedBytes` / `sizeKB`). -/
def targetLoop (c : Collab) (doc : List PdfPage) (t : ℕ) :
    List ℚ → Option (Bytes × ℕ) → List Ev × PdfTargetResult
  | [], prev =>
      ([], match prev with
        | some (b, s) => .notMetDownload b s
        | none => .crash)
  | q :: rest, _ =>
      match performPdfRenderingCompression c doc q with
      | (evs, .error e) => (Ev.attempt q :: evs, .failure e)
      | (evs, .ok b) =>
          let s := roundKB b.length
          if s ≤ t then (Ev.attempt q :: evs, .metDownload b q s)
          else
            match targetLoop c doc t rest (some (b, s)) with
            | (evs2, r) => (Ev.attempt q :: evs ++ evs2, r)

/-- The literal candidate list of src/script.js:340. -/
def qualities : List ℚ := [9/10, 7/10, 1/2, 3/10]

/-- Model of `compressPDFByTargetRendering` (src/script.js:326-365), for a
run in which a PDF file is selected.  `targetKB` is the `parseInt` of the
number input (`none` for NaN).  The guard of line 331 rejects a missing or
too-small target before the file is read or any collaborator invoked. -/
def compressPDFByTargetRendering (c : Collab) (doc : List PdfPage)
    (targetKB : Option ℕ) : List Ev × PdfTargetResult :=
  match targetKB with
  | none => ([], .configError)
  | some t =>
      if t < 10 then ([], .configError)
      else targetLoop c doc t qualities none

/-- Bytes actually delivered (downloaded) to the caller by mode 2. -/
def deliveredTarget : PdfTargetResult → Option Bytes
  | .metDownload b _ _ => some b
  | .notMetDownload b _ => some b
  | _ => none

/-- Bytes actually delivered (downloaded) to the caller by mode 1. -/
def deliveredQual : PdfQualResult → Option Bytes
  | .success b _ => some b
  | .failure _ => none

/-! ## Derived descriptions used by the theorems -/

/-- The sequence of quality values the raster loop would examine in its
first `fuel` iterations, following exactly the update rule of
src/script.js:219 (`quality = Math.max(0.05, quality - 0.05)`) and the
guard of line 211. -/
def qSeqList : ℚ → ℕ → List ℚ
  | _, 0 => []
  | q, fuel + 1 =>
      if (1 : ℚ)/20 ≤ q then q :: qSeqList (max ((1 : ℚ)/20) (q - 1/20)) fuel
      else []

/-- The event trace of one failure-free pass of the page loop starting at
1-based page index `i`. -/
def pageEvs (q : ℚ) : ℕ → List PdfPage → List Ev
  | _, [] => []
  | i, _ :: rest => Ev.render i :: Ev.encode i q :: Ev.embed i :: pageEvs q (i + 1) rest

/-- The output page that a failure-free page loop produces from source
page `p`: viewport dimensions, the embedded encoding of the rendered
pixels, and a full-bleed draw rectangle. -/
def outPageOf (r : PdfPage → ℚ → PixelBuffer) (e : PixelBuffer → ℚ → Bytes)
    (m : Bytes → Bytes) (q : ℚ) (p : PdfPage) : OutPage :=
  { width := (r p 2).width, height := (r p 2).height, image := m (e (r p 2) q),
    drawX := 0, drawY := 0, drawW := (r p 2).width, drawH := (r p 2).height }

/-- Recognizer for candidate-head events of the mode-2 loop. -/
def isAttempt : Ev → Bool
  | .attempt _ => true
  | _ => false

/-! ## Concrete instances used by counterexamples and witnesses -/

/-- An encoder every output of which is a 20480-character data URL, i.e.
measures as 20 KB at every quality (any image whose JPEG never fits the
target behaves like this). -/
def badEnc : ℚ → JsStr := fun _ => List.replicate 20480 'A'

/-- The characters of the data URL header `data:image/jpeg;base64` (the
22 characters before the comma). -/
def hdrBody : JsStr :=
  ['d', 'a', 't', 'a', ':', 'i', 'm', 'a', 'g', 'e', '/', 'j', 'p', 'e', 'g',
   ';', 'b', 'a', 's', 'e', '6', '4']

/-- A well-formed JPEG data URL with a 4096-character base64 payload: the
string is 4119 characters long, and its blob decodes to 3072 bytes. -/
def du3 : JsStr := hdrBody ++ ',' :: List.replicate 4096 'A'

/-- An encoder that returns `du3` at every quality. -/
def enc3 : ℚ → JsStr := fun _ => du3

/-- The bytes of the blob decoded from `du3`. -/
def blob3 : Bytes := List.replicate 3072 0

/-- A one-page source document. -/
def page1 : PdfPage := ⟨10, 12, 0⟩

/-- A deterministic rasterizer: the viewport scales the page dimensions. -/
def rePure : PdfPage → ℚ → PixelBuffer := fun p sc => ⟨sc * p.width, sc * p.height, p.content⟩

/-- A serializer whose output is the concatenation of the page images. -/
def joinSave : List OutPage → Bytes := fun ps => (ps.map OutPage.image).flatten

/-- A page encoder producing 20 KB of output at every quality. -/
def encBigf : PixelBuffer → ℚ → Bytes := fun _ _ => List.replicate 20480 0

/-- A page encoder producing 20 KB at quality 0.9 and 1 KB below it. -/
def enc57f : PixelBuffer → ℚ → Bytes := fun _ q =>
  if q = 9/10 then List.replicate 20480 0 else List.replicate 1024 0

/-- A failure-free collaborator bundle whose document builds always
measure 20 KB. -/
def cBig : Collab := pureCollab rePure encBigf id joinSave

/-- A failure-free collaborator bundle whose document builds measure
20 KB at quality 0.9 and 1 KB at the lower qualities. -/
def c57 : Collab := pureCollab rePure enc57f id joinSave

/-- The 20 KB build of `c57` at quality 0.9. -/
def b9c : Bytes := List.replicate 20480 0

/-- The 1 KB build of `c57` at the qualities below 0.9. -/
def b7c : Bytes := List.replicate 1024 0

/-- A collaborator bundle whose rasterizer always fails with cause 7. -/
def cFail : Collab where
  renderPage := fun _ _ => .error 7
  encodeJpeg := fun _ _ => .ok []
  embedJpg := fun b => .ok b
  save := fun _ => .ok []

/-! ## Helper lemmas about the raster loop -/

/-- When every attempt measures above the target, the loop consumes all
its fuel, examining exactly the qualities of `qSeqList`. -/
theorem rasterLoop_big (enc : ℚ → JsStr) (t : ℕ)
    (h : ∀ q : ℚ, (1 : ℚ)/20 ≤ q → t < roundKB (enc q).length) :
    ∀ (fuel : ℕ) (q : ℚ) (last : Option JsStr), (1 : ℚ)/20 ≤ q →
      rasterLoop enc t fuel q last = ((qSeqList q fuel).map Ev.rasterEncode, .outOfFuel) := by
  intro fuel
  induction fuel with
  | zero => intro q last hq; simp [rasterLoop, qSeqList]
  | succ n ih =>
      intro q last hq
      have hgt : ¬ roundKB (enc q).length ≤ t := not_le.mpr (h q hq)
      rw [rasterLoop, qSeqList, if_pos hq, if_pos hq]
      simp only [hgt, if_false]
      rw [ih (max ((1 : ℚ)/20) (q - 1/20)) (some (enc q)) (le_max_left _ _)]
      simp

/-- Starting at or above the floor, the loop can never exit through its
guard: the clamped update keeps the quality at or above 0.05. -/
theorem rasterLoop_no_condExit (enc : ℚ → JsStr) (t : ℕ) :
    ∀ (fuel : ℕ) (q : ℚ) (last : Option JsStr) (q2 : ℚ) (l2 : Option JsStr),
      (1 : ℚ)/20 ≤ q →
      (rasterLoop enc t fuel q last).2 ≠ .condExit q2 l2 := by
  intro fuel
  induction fuel with
  | zero => intro q last q2 l2 hq; simp [rasterLoop]
  | succ n ih =>
      intro q last q2 l2 hq
      rw [rasterLoop, if_pos hq]
      by_cases hs : roundKB (enc q).length ≤ t
      · simp [hs]
      · simp only [hs, if_false]
        have := ih (max ((1 : ℚ)/20) (q - 1/20)) (some (enc q)) q2 l2 (le_max_left _ _)
        cases hrec : rasterLoop enc t n (max ((1 : ℚ)/20) (q - 1/20)) (some (enc q)) with
        | mk evs ex => rw [hrec] at this; simpa using this

/-- A `broke` exit carries the encoding at the quality it reports, and
that encoding measured at or below the target. -/
theorem rasterLoop_broke_eq (enc : ℚ → JsStr) (t : ℕ) :
    ∀ (fuel : ℕ) (q : ℚ) (last : Option JsStr) (q2 : ℚ) (r : JsStr),
      (rasterLoop enc t fuel q last).2 = .broke q2 r →
      r = enc q2 ∧ roundKB r.length ≤ t := by
  intro fuel
  induction fuel with
  | zero => intro q last q2 r h; simp [rasterLoop] at h
  | succ n ih =>
      intro q last q2 r h
      rw [rasterLoop] at h
      by_cases hq : (1 : ℚ)/20 ≤ q
      · rw [if_pos hq] at h
        by_cases hs : roundKB (enc q).length ≤ t
        · simp only [hs, if_true] at h
          obtain ⟨hq2, hr⟩ := RasterLoopExit.broke.inj h
          subst hq2; subst hr
          exact ⟨rfl, hs⟩
        · simp only [hs, if_false] at h
          cases hrec : rasterLoop enc t n (max ((1 : ℚ)/20) (q - 1/20)) (some (enc q)) with
          | mk evs ex =>
              rw [hrec] at h
              simp only at h
              exact ih _ _ q2 r (by rw [hrec]; exact h)
      · rw [if_neg hq] at h
        simp at h

/-- Every event the raster loop records is an encode attempt. -/
theorem rasterLoop_evs_encode (enc : ℚ → JsStr) (t : ℕ) :
    ∀ (fuel : ℕ) (q : ℚ) (last : Option JsStr) (ev : Ev),
      ev ∈ (rasterLoop enc t fuel q last).1 → ∃ q2, ev = Ev.rasterEncode q2 := by
  intro fuel
  induction fuel with
  | zero => intro q last ev h; simp [rasterLoop] at h
  | succ n ih =>
      intro q last ev h
      rw [rasterLoop] at h
      by_cases hq : (1 : ℚ)/20 ≤ q
      · rw [if_pos hq] at h
        by_cases hs : roundKB (enc q).length ≤ t
        · simp only [hs, if_true] at h
          simp at h
          exact ⟨q, h⟩
        · simp only [hs, if_false] at h
          cases hrec : rasterLoop enc t n (max ((1 : ℚ)/20) (q - 1/20)) (some (enc q)) with
          | mk evs ex =>
              rw [hrec] at h
              simp only [List.mem_cons] at h
              rcases h with h | h
              · exact ⟨q, h⟩
              · exact ih _ _ ev (by rw [hrec]; exact h)
      · rw [if_neg hq] at h
        simp at h

/-! ## Helper lemmas about data URL decoding -/

/-- Splitting a string whose first comma follows `l1` yields `l1` and the
splits of the remainder. -/
theorem splitComma_append_comma (l1 l2 : List Char) (h : ',' ∉ l1) :
    splitComma (l1 ++ ',' :: l2) = l1 :: splitComma l2 := by
  induction l1 with
  | nil => simp [splitComma]
  | cons c cs ih =>
      have hc : ¬ c = ',' := fun hcc => h (hcc ▸ List.mem_cons_self c cs)
      have hcs : ',' ∉ cs := fun hmem => h (List.mem_cons_of_mem c hmem)
      simp only [List.cons_append, splitComma, if_neg hc, List.append_eq, ih hcs]

/-- A comma-free payload splits into a single segment. -/
theorem splitComma_replicateA (k : ℕ) :
    splitComma (List.replicate k 'A') = [List.replicate k 'A'] := by
  induction k with
  | zero => rfl
  | succ n ih =>
      rw [List.replicate_succ, splitComma, if_neg (by decide), ih]

/-- Padding stripping leaves an all-`A` payload unchanged. -/
theorem stripPad_replicateA (k : ℕ) :
    stripPad (List.replicate k 'A') = List.replicate k 'A' := by
  rcases k with _ | n
  · rfl
  rcases n with _ | m
  · rfl
  · rw [stripPad, List.reverse_replicate,
      show List.replicate (m + 2) 'A' = 'A' :: 'A' :: List.replicate m 'A' from rfl]
    exact if_neg (by decide)

/-- Decoding an all-`A` payload maps every character to the 6-bit value 0. -/
theorem b64Vals_replicateA (k : ℕ) :
    b64Vals (List.replicate k 'A') = some (List.replicate k 0) := by
  induction k with
  | zero => rfl
  | succ n ih =>
      rw [List.replicate_succ, b64Vals, ih, show b64Val 'A' = some 0 from by decide,
        List.replicate_succ]

/-- Reassembling `4 * k` zero 6-bit values yields `3 * k` zero bytes. -/
theorem b64Bytes_replicate0 (k : ℕ) :
    b64Bytes (List.replicate (4 * k) 0) = List.replicate (3 * k) 0 := by
  induction k with
  | zero => rfl
  | succ n ih =>
      have h4 : 4 * (n + 1) = 4 * n + 4 := by ring
      have h3 : 3 * (n + 1) = 3 * n + 3 := by ring
      rw [h4, h3,
        show List.replicate (4 * n + 4) (0 : ℕ)
            = 0 :: 0 :: 0 :: 0 :: List.replicate (4 * n) 0 from rfl,
        show List.replicate (3 * n + 3) (0 : ℕ)
            = 0 :: 0 :: 0 :: List.replicate (3 * n) 0 from rfl,
        b64Bytes, ih]

/-- The `atob` of an all-`A` payload of length `4 * k` is `3 * k` zero
bytes. -/
theorem atob_replicate4A (k : ℕ) :
    atob (List.replicate (4 * k) 'A') = some (List.replicate (3 * k) 0) := by
  rw [atob]
  simp only [stripPad_replicateA, List.length_replicate, Nat.mul_mod_right]
  rw [if_neg (by omega), b64Vals_replicateA]
  show some (b64Bytes (List.replicate (4 * k) 0)) = some (List.replicate (3 * k) 0)
  rw [b64Bytes_replicate0]

/-- The blob decoded from the concrete data URL `du3` is `blob3`:
3072 zero bytes, while the string itself is 4119 characters long. -/
theorem dataURLToBlob_du3 : dataURLToBlob du3 = some blob3 := by
  rw [dataURLToBlob, du3, splitComma_append_comma hdrBody _ (by decide),
    splitComma_replicateA]
  show atob (List.replicate 4096 'A') = some blob3
  rw [show (4096 : ℕ) = 4 * 1024 from rfl, atob_replicate4A]
  norm_num [blob3]

/-- The concrete data URL `du3` is 4119 characters long. -/
theorem du3_length : du3.length = 4119 := by
  rw [du3, List.length_append, List.length_cons, List.length_replicate]
  decide

/-- With `badEnc` (every attempt measures 20 KB) and target 10 KB, every
examined quality measures above the target. -/
theorem badEnc_always_big :
    ∀ q : ℚ, (1 : ℚ)/20 ≤ q → 10 < roundKB ((badEnc q).length) := by
  intro q _
  simp only [badEnc, List.length_replicate]
  decide

/-- C1: the claim that the step-decay search terminates for every input
is violated by the code.  With an encoder whose outputs always measure
20 KB against a 10 KB target (the exhaustion case of the claim), the
`while (quality >= 0.05)` loop of `compressImageToTarget` never finishes,
whatever fuel it is given: `Math.max(0.05, quality - 0.05)` clamps the
quality at 0.05, the guard stays true, and the floor-quality result is
never returned — the code re-encodes at 0.05 forever instead of stopping
at the floor with `targetMet = false`. -/
theorem claim1_raster_target_search_never_exits_at_floor :
    ∀ fuel : ℕ, (compressImageToTarget badEnc (some 10) fuel).2 = .noTermination := by
  intro fuel
  have hrl := rasterLoop_big badEnc 10 badEnc_always_big fuel (19/20) none (by norm_num)
  simp [compressImageToTarget, hrl]

/-- A first attempt that already meets the target breaks immediately with
that attempt's encoding. -/
theorem rasterLoop_first_hit (enc : ℚ → JsStr) (t : ℕ) (fuel : ℕ) (q : ℚ)
    (last : Option JsStr) (hq : (1 : ℚ)/20 ≤ q) (hs : roundKB (enc q).length ≤ t) :
    rasterLoop enc t (fuel + 1) q last = ([Ev.rasterEncode q], .broke q (enc q)) := by
  rw [rasterLoop, if_pos hq, if_pos hs]

/-- Sizes stored by the candidate loop always measure the stored bytes,
so the size a terminal outcome reports is the measure of its bytes. -/
theorem targetLoop_sizes (c : Collab) (doc : List PdfPage) (t : ℕ) :
    ∀ (qs : List ℚ) (prev : Option (Bytes × ℕ)),
      (∀ b s, prev = some (b, s) → s = roundKB b.length) →
      (∀ b q s, (targetLoop c doc t qs prev).2 = .metDownload b q s → s = roundKB b.length) ∧
      (∀ b s, (targetLoop c doc t qs prev).2 = .notMetDownload b s → s = roundKB b.length) := by
  intro qs
  induction qs with
  | nil =>
      intro prev hprev
      rcases prev with _ | ⟨b0, s0⟩
      · constructor
        · intro b q s h; simp [targetLoop] at h
        · intro b s h; simp [targetLoop] at h
      · constructor
        · intro b q s h; simp [targetLoop] at h
        · intro b s h
          simp only [targetLoop] at h
          obtain ⟨hb, hs⟩ := PdfTargetResult.notMetDownload.inj h
          subst hb; subst hs
          exact hprev b0 s0 rfl
  | cons q rest ih =>
      intro prev hprev
      rw [targetLoop]
      cases hp : performPdfRenderingCompression c doc q with
      | mk evs r =>
          cases r with
          | error e =>
              constructor
              · intro b q2 s h; simp at h
              · intro b s h; simp at h
          | ok b0 =>
              by_cases hs : roundKB b0.length ≤ t
              · simp only [hs, if_true]
                constructor
                · intro b q2 s h
                  obtain ⟨hb, _, hsz⟩ := PdfTargetResult.metDownload.inj h
                  subst hb; subst hsz
                  rfl
                · intro b s h; simp at h
              · simp only [hs, if_false]
                have hinv : ∀ b s, (some (b0, roundKB b0.length) : Option (Bytes × ℕ))
                    = some (b, s) → s = roundKB b.length := by
                  intro b s hbs
                  obtain ⟨hb, hsz⟩ := Prod.mk.inj (Option.some.inj hbs)
                  subst hb; subst hsz; rfl
                have hrest := ih (some (b0, roundKB b0.length)) hinv
                cases hrec : targetLoop c doc t rest (some (b0, roundKB b0.length)) with
                | mk evs2 r2 =>
                    rw [hrec] at hrest
                    constructor
                    · intro b q2 s h
                      exact hrest.1 b q2 s h
                    · intro b s h
                      exact hrest.2 b s h

/-- C4: the claim that the examined quality sequence is strictly
descending and a prefix of 0.95, 0.90, …, 0.05 is violated by the code.
In the exhaustion case (every attempt measuring 20 KB against a 10 KB
target), a 20-iteration run already examines quality 0.05 twice — the
18th step reaches 0.05 and the clamped update re-examines 0.05 — so the
examined sequence is not strictly descending and is not a prefix of the
claimed set. -/
theorem claim4_floor_quality_examined_twice :
    ((compressImageToTarget badEnc (some 10) 20).1.count (Ev.rasterEncode (1/20))) = 2 := by
  have hrl := rasterLoop_big badEnc 10 badEnc_always_big 20 (19/20) none (by norm_num)
  simp only [compressImageToTarget, hrl]
  with_unfolding_all decide

/-- A run whose loop breaks delivers the broken attempt through
`rasterDeliver`, after the single image decode. -/
theorem compressImageToTarget_broke (enc : ℚ → JsStr) (t fuel : ℕ) (q : ℚ)
    (r : JsStr) (evs : List Ev) (h10 : ¬ t < 10)
    (hrl : rasterLoop enc t fuel (19/20) none = (evs, .broke q r)) :
    compressImageToTarget enc (some t) fuel
      = (Ev.decodeImage :: evs, rasterDeliver t q r) := by
  rw [compressImageToTarget, if_neg h10, hrl]

/-- Delivery of a result whose blob conversion succeeds. -/
theorem rasterDeliver_some (t : ℕ) (q : ℚ) (r : JsStr) (blob : Bytes)
    (hdb : dataURLToBlob r = some blob) :
    rasterDeliver t q r
      = .download blob (roundKB r.length) (decide (roundKB r.length ≤ t)) q := by
  rw [rasterDeliver, hdb]

/-- The concrete run on `enc3` against a 10 KB target: the first attempt
measures 4 KB, breaks, and delivers the 3072-byte blob. -/
theorem enc3_run :
    (compressImageToTarget enc3 (some 10) 1).2 = .download blob3 4 true (19/20) := by
  have hkb : roundKB du3.length = 4 := by rw [du3_length]; decide
  have h1 : rasterLoop enc3 10 1 (19/20) none
      = ([Ev.rasterEncode (19/20)], .broke (19/20) du3) := by
    have h := rasterLoop_first_hit enc3 10 0 (19/20) none (by norm_num)
      (le_of_eq_of_le hkb (by norm_num))
    simpa [enc3] using h
  rw [compressImageToTarget_broke enc3 10 1 (19/20) du3 _ (by norm_num) h1]
  rw [rasterDeliver_some 10 (19/20) du3 blob3 dataURLToBlob_du3]
  rw [hkb]
  rfl

/-- C3 counterexample: the claim that the size the search measures and
reports equals the byte length of the bytes the caller receives is false.
With an encoder whose data URL is 4119 characters (a 4096-character
base64 payload), the first attempt meets a 10 KB target, the search
measures and reports 4 KB (`Math.round(4119 / 1024)`), but the delivered
blob holds 3072 bytes, i.e. 3 KB: the reported size is the data-URL
string length, not the byte length of the delivered blob. -/
theorem claim3_measured_vs_delivered_counterexample :
    (compressImageToTarget enc3 (some 10) 1).2 = .download blob3 4 true (19/20) ∧
      blob3.length = 3072 ∧ roundKB blob3.length = 3 ∧ (4 : ℕ) ≠ 3 :=
  ⟨enc3_run, by simp only [blob3, List.length_replicate],
    by simp only [blob3, List.length_replicate]; decide, by decide⟩

/-- C3 amended: the achieved size that the raster search measures,
compares against the target, and reports is `Math.round` of the data-URL
string length of the final attempt — not the byte length of the delivered
blob, which is the base64 decoding of that same data URL (about 3/4 of
the payload) — while in the document target search the reported size is
indeed measured from the very bytes that are delivered. -/
theorem claim3_reported_size_semantics :
    (∀ (enc : ℚ → JsStr) (tk : ℕ) (fuel : ℕ) (b : Bytes) (s : ℕ) (met : Bool) (q : ℚ),
      (compressImageToTarget enc (some tk) fuel).2 = .download b s met q →
      s = roundKB (enc q).length ∧ dataURLToBlob (enc q) = some b) ∧
    (∀ (c : Collab) (doc : List PdfPage) (tk : Option ℕ) (b : Bytes) (q : ℚ) (s : ℕ),
      (compressPDFByTargetRendering c doc tk).2 = .metDownload b q s →
      s = roundKB b.length) ∧
    (∀ (c : Collab) (doc : List PdfPage) (tk : Option ℕ) (b : Bytes) (s : ℕ),
      (compressPDFByTargetRendering c doc tk).2 = .notMetDownload b s →
      s = roundKB b.length) := by
  refine ⟨?_, ?_, ?_⟩
  · intro enc tk fuel b s met q h
    rw [compressImageToTarget] at h
    by_cases h10 : tk < 10
    · rw [if_pos h10] at h; simp at h
    · rw [if_neg h10] at h
      cases hrl : rasterLoop enc tk fuel (19/20) none with
      | mk evs ex =>
          rw [hrl] at h
          cases ex with
          | outOfFuel => simp at h
          | condExit q1 l1 =>
              exact absurd (by rw [hrl])
                (rasterLoop_no_condExit enc tk fuel (19/20) none q1 l1 (by norm_num))
          | broke q1 r =>
              simp only at h
              rw [rasterDeliver] at h
              cases hdb : dataURLToBlob r with
              | none => rw [hdb] at h; simp at h
              | some blob =>
                  rw [hdb] at h
                  simp only at h
                  obtain ⟨hb, hsz, _, hq⟩ := RasterResult.download.inj h
                  have hr : r = enc q1 :=
                    (rasterLoop_broke_eq enc tk fuel (19/20) none q1 r (by rw [hrl])).1
                  subst hq; subst hb; subst hsz
                  rw [hr] at hdb ⊢
                  exact ⟨rfl, hdb⟩
  · intro c doc tk b q s h
    rcases tk with _ | t
    · simp [compressPDFByTargetRendering] at h
    · rw [compressPDFByTargetRendering] at h
      by_cases h10 : t < 10
      · rw [if_pos h10] at h; simp at h
      · rw [if_neg h10] at h
        exact (targetLoop_sizes c doc t qualities none (by intro b s hbs; simp at hbs)).1 b q s h
  · intro c doc tk b s h
    rcases tk with _ | t
    · simp [compressPDFByTargetRendering] at h
    · rw [compressPDFByTargetRendering] at h
      by_cases h10 : t < 10
      · rw [if_pos h10] at h; simp at h
      · rw [if_neg h10] at h
        exact (targetLoop_sizes c doc t qualities none (by intro b s hbs; simp at hbs)).2 b s h

/-- Witness for the amended C3 theorem at the concrete encoder `enc3`:
the reported 4 KB is the rounded data-URL string length and the delivered
blob is its base64 decoding. -/
theorem claim3_reported_size_semantics_witness :
    (compressImageToTarget enc3 (some 10) 1).2 = .download blob3 4 true (19/20) ∧
      ((4 : ℕ) = roundKB (enc3 (19/20)).length ∧ dataURLToBlob (enc3 (19/20)) = some blob3) :=
  ⟨enc3_run, claim3_reported_size_semantics.1 enc3 10 1 blob3 4 true (19/20) enc3_run⟩

/-! ## Helper lemmas about the document pipeline -/

/-- One failure-free page-loop iteration produces the expected page. -/
theorem processPage_pure (r : PdfPage → ℚ → PixelBuffer) (e : PixelBuffer → ℚ → Bytes)
    (m : Bytes → Bytes) (s : List OutPage → Bytes) (q : ℚ) (i : ℕ) (p : PdfPage) :
    processPage (pureCollab r e m s) q i p
      = ([Ev.render i, Ev.encode i q, Ev.embed i], .ok (outPageOf r e m q p)) := rfl

/-- The failure-free page loop maps the page pipeline over the document,
preserving page count and page order. -/
theorem buildPages_pure (r : PdfPage → ℚ → PixelBuffer) (e : PixelBuffer → ℚ → Bytes)
    (m : Bytes → Bytes) (s : List OutPage → Bytes) (q : ℚ) :
    ∀ (doc : List PdfPage) (i : ℕ),
      buildPages (pureCollab r e m s) q i doc
        = (pageEvs q i doc, .ok (doc.map (outPageOf r e m q))) := by
  intro doc
  induction doc with
  | nil => intro i; rfl
  | cons p rest ih =>
      intro i
      rw [buildPages, processPage_pure, ih (i + 1)]
      rfl

/-- The failure-free fixed-quality reduction: the assembled document is
the per-page pipeline mapped over the input pages, then serialized. -/
theorem perform_pure (r : PdfPage → ℚ → PixelBuffer) (e : PixelBuffer → ℚ → Bytes)
    (m : Bytes → Bytes) (s : List OutPage → Bytes) (doc : List PdfPage) (q : ℚ) :
    performPdfRenderingCompression (pureCollab r e m s) doc q
      = (pageEvs q 1 doc ++ [Ev.save], .ok (s (doc.map (outPageOf r e m q)))) := by
  rw [performPdfRenderingCompression, buildPages_pure]
  rfl

/-- No iteration of the page loop records a candidate-head event. -/
theorem processPage_no_attempt (c : Collab) (q : ℚ) (i : ℕ) (p : PdfPage) (q2 : ℚ) :
    Ev.attempt q2 ∉ (processPage c q i p).1 := by
  rw [processPage]
  rcases hr : c.renderPage p 2 with e | pix
  · simp [hr]
  · rcases he : c.encodeJpeg pix q with e2 | bytes
    · simp [hr, he]
    · rcases hm : c.embedJpg bytes with e3 | ref
      · simp [hr, he, hm]
      · simp [hr, he, hm]

/-- The page loop records no candidate-head event. -/
theorem buildPages_no_attempt (c : Collab) (q : ℚ) (q2 : ℚ) :
    ∀ (doc : List PdfPage) (i : ℕ), Ev.attempt q2 ∉ (buildPages c q i doc).1 := by
  intro doc
  induction doc with
  | nil => intro i; simp [buildPages]
  | cons p rest ih =>
      intro i
      rw [buildPages]
      cases hpp : processPage c q i p with
      | mk evs r =>
          have hevs : Ev.attempt q2 ∉ evs := by
            have := processPage_no_attempt c q i p q2
            rw [hpp] at this
            exact this
          cases r with
          | error e => exact hevs
          | ok op =>
              cases hbp : buildPages c q (i + 1) rest with
              | mk evs2 r2 =>
                  have hevs2 : Ev.attempt q2 ∉ evs2 := by
                    have := ih (i + 1)
                    rw [hbp] at this
                    exact this
                  simp only [List.mem_append]
                  rintro (h | h)
                  · exact hevs h
                  · exact hevs2 h

/-- A document build records no candidate-head event. -/
theorem perform_no_attempt (c : Collab) (doc : List PdfPage) (q : ℚ) (q2 : ℚ) :
    Ev.attempt q2 ∉ (performPdfRenderingCompression c doc q).1 := by
  rw [performPdfRenderingCompression]
  cases hbp : buildPages c q 1 doc with
  | mk evs r =>
      have hevs : Ev.attempt q2 ∉ evs := by
        have := buildPages_no_attempt c q q2 doc 1
        rw [hbp] at this
        exact this
      cases r with
      | error e => exact hevs
      | ok pages =>
          simp only [List.mem_append]
          rintro (h | h)
          · exact hevs h
          · simp at h

/-- C7: with a missing target or a target below the 10 KB minimum, both
the raster reducer and the document target reducer stop at the
configuration guard: they return the configuration error with an empty
event trace, so neither the decoder, the rasterizer, the encoder, nor
document assembly is ever invoked. -/
theorem claim7_invalid_target_config_error :
    ∀ (enc : ℚ → JsStr) (fuel : ℕ) (c : Collab) (doc : List PdfPage) (tk : Option ℕ),
      (tk = none ∨ ∃ t, tk = some t ∧ t < 10) →
      compressImageToTarget enc tk fuel = ([], .configError) ∧
      compressPDFByTargetRendering c doc tk = ([], .configError) := by
  intro enc fuel c doc tk h
  rcases h with h | ⟨t, ht, hlt⟩
  · subst h; exact ⟨rfl, rfl⟩
  · subst ht
    exact ⟨by rw [compressImageToTarget, if_pos hlt],
      by rw [compressPDFByTargetRendering, if_pos hlt]⟩

/-- Witness for C7 at the concrete target 5 KB. -/
theorem claim7_witness :
    compressImageToTarget enc3 (some 5) 0 = ([], .configError) ∧
      compressPDFByTargetRendering cBig [page1] (some 5) = ([], .configError) :=
  claim7_invalid_target_config_error enc3 0 cBig [page1] (some 5)
    (Or.inr ⟨5, rfl, by norm_num⟩)

/-- C8: the fixed-quality document reduction preserves page count and
page order: for any failure-free collaborators, any document and any
quality, the assembled pages are exactly the input pages mapped through
the per-page render-encode-embed pipeline (so the output has as many
pages as the input, and output page i is the full-bleed encoded image of
input page i). -/
theorem claim8_fixed_quality_preserves_pages :
    ∀ (r : PdfPage → ℚ → PixelBuffer) (e : PixelBuffer → ℚ → Bytes)
      (m : Bytes → Bytes) (s : List OutPage → Bytes) (doc : List PdfPage) (q : ℚ),
      (buildPages (pureCollab r e m s) q 1 doc).2 = .ok (doc.map (outPageOf r e m q)) ∧
      (performPdfRenderingCompression (pureCollab r e m s) doc q).2
        = .ok (s (doc.map (outPageOf r e m q))) ∧
      (doc.map (outPageOf r e m q)).length = doc.length ∧
      (∀ (i : ℕ) (h : i < doc.length) (h2 : i < (doc.map (outPageOf r e m q)).length),
        (doc.map (outPageOf r e m q)).get ⟨i, h2⟩ = outPageOf r e m q (doc.get ⟨i, h⟩)) := by
  intro r e m s doc q
  refine ⟨by rw [buildPages_pure], by rw [perform_pure], List.length_map doc _, ?_⟩
  intro i h h2
  simp [List.get_eq_getElem, List.getElem_map]

/-- Witness for C8 on a one-page document at quality one half. -/
theorem claim8_fixed_quality_preserves_pages_witness :
    (buildPages (pureCollab rePure enc57f id joinSave) (1/2) 1 [page1]).2
      = .ok ([page1].map (outPageOf rePure enc57f id (1/2))) ∧
      ([page1].map (outPageOf rePure enc57f id (1/2))).get ⟨0, by simp⟩
        = outPageOf rePure enc57f id (1/2) page1 := by
  have h := claim8_fixed_quality_preserves_pages rePure enc57f id joinSave [page1] (1/2)
  exact ⟨h.1, h.2.2.2 0 (by simp) (by simp)⟩

/-- C10: a zero-page document makes the page loop do nothing: no page is
rasterized or encoded, the only collaborator invoked is the serializer,
and the result is the serialization of the empty assembled document, for
every quality in the unit interval. -/
theorem claim10_zero_pages :
    ∀ (c : Collab) (q : ℚ), 0 < q → q ≤ 1 →
      buildPages c q 1 [] = ([], .ok []) ∧
      performPdfRenderingCompression c [] q = ([Ev.save], c.save []) ∧
      (∀ i, Ev.render i ∉ (performPdfRenderingCompression c [] q).1) ∧
      (∀ i q2, Ev.encode i q2 ∉ (performPdfRenderingCompression c [] q).1) := by
  intro c q _ _
  have h2 : performPdfRenderingCompression c [] q = ([Ev.save], c.save []) := rfl
  refine ⟨rfl, h2, ?_, ?_⟩
  · intro i; rw [h2]; simp
  · intro i q2; rw [h2]; simp

/-- Witness for C10 at quality one half with concrete collaborators. -/
theorem claim10_zero_pages_witness :
    performPdfRenderingCompression cBig [] (1/2) = ([Ev.save], cBig.save []) ∧
      Ev.render 1 ∉ (performPdfRenderingCompression cBig [] (1/2)).1 := by
  have h := claim10_zero_pages cBig (1/2) (by norm_num) (by norm_num)
  exact ⟨h.2.1, h.2.2.1 1⟩

/-! ## Step lemmas for the candidate loop of mode 2 -/

/-- A candidate whose build errors ends the whole loop as a failure with
that cause. -/
theorem targetLoop_step_error (c : Collab) (doc : List PdfPage) (t : ℕ) (q : ℚ)
    (rest : List ℚ) (prev : Option (Bytes × ℕ)) (e : ℕ)
    (he : (performPdfRenderingCompression c doc q).2 = .error e) :
    targetLoop c doc t (q :: rest) prev
      = (Ev.attempt q :: (performPdfRenderingCompression c doc q).1, .failure e) := by
  rw [targetLoop]
  cases hp : performPdfRenderingCompression c doc q with
  | mk evs r =>
      rw [hp] at he
      simp only at he
      subst he
      rfl

/-- A candidate whose build meets the target ends the loop with its
download. -/
theorem targetLoop_step_accept (c : Collab) (doc : List PdfPage) (t : ℕ) (q : ℚ)
    (rest : List ℚ) (prev : Option (Bytes × ℕ)) (b : Bytes)
    (hb : (performPdfRenderingCompression c doc q).2 = .ok b)
    (hs : roundKB b.length ≤ t) :
    targetLoop c doc t (q :: rest) prev
      = (Ev.attempt q :: (performPdfRenderingCompression c doc q).1,
         .metDownload b q (roundKB b.length)) := by
  rw [targetLoop]
  cases hp : performPdfRenderingCompression c doc q with
  | mk evs r =>
      rw [hp] at hb
      simp only at hb
      subst hb
      simp only [hs, if_true]

/-- A candidate whose build is still above the target hands over to the
remaining candidates, remembering this build. -/
theorem targetLoop_step_reject (c : Collab) (doc : List PdfPage) (t : ℕ) (q : ℚ)
    (rest : List ℚ) (prev : Option (Bytes × ℕ)) (b : Bytes)
    (hb : (performPdfRenderingCompression c doc q).2 = .ok b)
    (hs : ¬ roundKB b.length ≤ t) :
    targetLoop c doc t (q :: rest) prev
      = (Ev.attempt q :: (performPdfRenderingCompression c doc q).1
          ++ (targetLoop c doc t rest (some (b, roundKB b.length))).1,
         (targetLoop c doc t rest (some (b, roundKB b.length))).2) := by
  rw [targetLoop]
  cases hp : performPdfRenderingCompression c doc q with
  | mk evs r =>
      rw [hp] at hb
      simp only at hb
      subst hb
      simp only [hs, if_false]

/-- An exhausted loop delivers the remembered last build. -/
theorem targetLoop_exhausted (c : Collab) (doc : List PdfPage) (t : ℕ)
    (b : Bytes) (s : ℕ) :
    targetLoop c doc t [] (some (b, s)) = ([], .notMetDownload b s) := rfl

/-- C5: the document target search tries the candidates 0.9, 0.7, 0.5,
0.3 strictly in that order and stops at the first one meeting the target:
whenever the 0.9 build measures above the target and the 0.7 build meets
it, the outcome is the 0.7 build's download at quality 0.7, the trace
shows candidate 0.9 attempted (and rejected) before 0.7, and candidates
0.5 and 0.3 are never attempted. -/
theorem claim5_first_success_wins :
    ∀ (c : Collab) (doc : List PdfPage) (t : ℕ) (b9 b7 : Bytes),
      10 ≤ t →
      (performPdfRenderingCompression c doc (9/10)).2 = .ok b9 →
      ¬ roundKB b9.length ≤ t →
      (performPdfRenderingCompression c doc (7/10)).2 = .ok b7 →
      roundKB b7.length ≤ t →
      compressPDFByTargetRendering c doc (some t)
        = (Ev.attempt (9/10) :: (performPdfRenderingCompression c doc (9/10)).1
            ++ Ev.attempt (7/10) :: (performPdfRenderingCompression c doc (7/10)).1,
           .metDownload b7 (7/10) (roundKB b7.length)) ∧
      Ev.attempt (1/2) ∉ (compressPDFByTargetRendering c doc (some t)).1 ∧
      Ev.attempt (3/10) ∉ (compressPDFByTargetRendering c doc (some t)).1 := by
  intro c doc t b9 b7 h10 h9 hs9 h7 hs7
  have hrun : compressPDFByTargetRendering c doc (some t)
      = (Ev.attempt (9/10) :: (performPdfRenderingCompression c doc (9/10)).1
          ++ Ev.attempt (7/10) :: (performPdfRenderingCompression c doc (7/10)).1,
         .metDownload b7 (7/10) (roundKB b7.length)) := by
    rw [compressPDFByTargetRendering, if_neg (by omega), qualities,
      targetLoop_step_reject c doc t (9/10) _ none b9 h9 hs9,
      targetLoop_step_accept c doc t (7/10) _ _ b7 h7 hs7]
  have hmem : (compressPDFByTargetRendering c doc (some t)).1
      = Ev.attempt (9/10) :: (performPdfRenderingCompression c doc (9/10)).1
          ++ Ev.attempt (7/10) :: (performPdfRenderingCompression c doc (7/10)).1 := by
    rw [hrun]
  refine ⟨hrun, ?_, ?_⟩
  · rw [hmem]
    intro hm
    rcases List.mem_cons.mp hm with h | hm2
    · exact absurd (Ev.attempt.inj h) (by norm_num)
    rcases List.mem_append.mp hm2 with h | hm3
    · exact perform_no_attempt c doc (9/10) (1/2) h
    rcases List.mem_cons.mp hm3 with h | h
    · exact absurd (Ev.attempt.inj h) (by norm_num)
    · exact perform_no_attempt c doc (7/10) (1/2) h
  · rw [hmem]
    intro hm
    rcases List.mem_cons.mp hm with h | hm2
    · exact absurd (Ev.attempt.inj h) (by norm_num)
    rcases List.mem_append.mp hm2 with h | hm3
    · exact perform_no_attempt c doc (9/10) (3/10) h
    rcases List.mem_cons.mp hm3 with h | h
    · exact absurd (Ev.attempt.inj h) (by norm_num)
    · exact perform_no_attempt c doc (7/10) (3/10) h

/-- Witness for C5: with `c57` on a one-page document against 10 KB, the
0.9 build measures 20 KB and is rejected, the 0.7 build measures 1 KB and
is accepted. -/
theorem claim5_first_success_wins_witness :
    compressPDFByTargetRendering c57 [page1] (some 10)
      = (Ev.attempt (9/10) :: (performPdfRenderingCompression c57 [page1] (9/10)).1
          ++ Ev.attempt (7/10) :: (performPdfRenderingCompression c57 [page1] (7/10)).1,
         .metDownload b7c (7/10) (roundKB b7c.length)) ∧
      Ev.attempt (1/2) ∉ (compressPDFByTargetRendering c57 [page1] (some 10)).1 ∧
      Ev.attempt (3/10) ∉ (compressPDFByTargetRendering c57 [page1] (some 10)).1 := by
  have hj9 : joinSave ([page1].map (outPageOf rePure enc57f id (9/10))) = b9c := by
    simp only [joinSave, List.map_cons, List.map_nil, List.flatten_cons,
      List.flatten_nil, List.append_nil, outPageOf, id_eq, enc57f]
    norm_num [b9c]
  have hj7 : joinSave ([page1].map (outPageOf rePure enc57f id (7/10))) = b7c := by
    simp only [joinSave, List.map_cons, List.map_nil, List.flatten_cons,
      List.flatten_nil, List.append_nil, outPageOf, id_eq, enc57f]
    norm_num [b7c]
  have h9 : (performPdfRenderingCompression c57 [page1] (9/10)).2 = .ok b9c := by
    rw [c57, perform_pure, hj9]
  have h7 : (performPdfRenderingCompression c57 [page1] (7/10)).2 = .ok b7c := by
    rw [c57, perform_pure, hj7]
  have hl9 : b9c.length = 20480 := by simp only [b9c, List.length_replicate]
  have hl7 : b7c.length = 1024 := by simp only [b7c, List.length_replicate]
  exact claim5_first_success_wins c57 [page1] 10 b9c b7c (by norm_num) h9
    (by rw [hl9]; decide) h7 (by rw [hl7]; decide)

/-- C6: when every candidate of the document target search measures above
the target, the search ends as a soft target-not-met outcome: the
delivered download is exactly the last (0.3-quality) build with its
measured size, and it is delivered to the caller, not discarded. -/
theorem claim6_exhaustion_returns_last_build :
    ∀ (c : Collab) (doc : List PdfPage) (t : ℕ) (b9 b7 b5 b3 : Bytes),
      10 ≤ t →
      (performPdfRenderingCompression c doc (9/10)).2 = .ok b9 →
      ¬ roundKB b9.length ≤ t →
      (performPdfRenderingCompression c doc (7/10)).2 = .ok b7 →
      ¬ roundKB b7.length ≤ t →
      (performPdfRenderingCompression c doc (1/2)).2 = .ok b5 →
      ¬ roundKB b5.length ≤ t →
      (performPdfRenderingCompression c doc (3/10)).2 = .ok b3 →
      ¬ roundKB b3.length ≤ t →
      (compressPDFByTargetRendering c doc (some t)).2
        = .notMetDownload b3 (roundKB b3.length) ∧
      deliveredTarget (compressPDFByTargetRendering c doc (some t)).2 = some b3 := by
  intro c doc t b9 b7 b5 b3 h10 h9 hs9 h7 hs7 h5 hs5 h3 hs3
  have hrun : (compressPDFByTargetRendering c doc (some t)).2
      = .notMetDownload b3 (roundKB b3.length) := by
    rw [compressPDFByTargetRendering, if_neg (by omega), qualities,
      targetLoop_step_reject c doc t (9/10) _ none b9 h9 hs9,
      targetLoop_step_reject c doc t (7/10) _ _ b7 h7 hs7,
      targetLoop_step_reject c doc t (1/2) _ _ b5 h5 hs5,
      targetLoop_step_reject c doc t (3/10) _ _ b3 h3 hs3,
      targetLoop_exhausted]
  exact ⟨hrun, by rw [hrun]; rfl⟩

/-- The build of the one-page document under `cBig` at any quality: one
render-encode-embed pass plus the save, producing the 20 KB bytes. -/
theorem cBig_perform (q : ℚ) :
    performPdfRenderingCompression cBig [page1] q
      = ([Ev.render 1, Ev.encode 1 q, Ev.embed 1, Ev.save], .ok b9c) := by
  have hj : joinSave ([page1].map (outPageOf rePure encBigf id q)) = b9c := by
    simp only [joinSave, List.map_cons, List.map_nil, List.flatten_cons,
      List.flatten_nil, List.append_nil, outPageOf, id_eq, encBigf]
    rfl
  rw [cBig, perform_pure, hj]
  rfl

/-- The 20 KB build measures above a 10 KB target. -/
theorem cBig_too_big : ¬ roundKB b9c.length ≤ 10 := by
  rw [show b9c.length = 20480 from by simp only [b9c, List.length_replicate]]
  decide

/-- Witness for C6: with `cBig` every build measures 20 KB against 10 KB,
and the delivered bytes are the 0.3 build. -/
theorem claim6_exhaustion_returns_last_build_witness :
    (compressPDFByTargetRendering cBig [page1] (some 10)).2
      = .notMetDownload b9c (roundKB b9c.length) ∧
      deliveredTarget (compressPDFByTargetRendering cBig [page1] (some 10)).2
        = some b9c := by
  have hb : ∀ q : ℚ, (performPdfRenderingCompression cBig [page1] q).2 = .ok b9c := by
    intro q
    rw [cBig_perform]
  exact claim6_exhaustion_returns_last_build cBig [page1] 10 b9c b9c b9c b9c
    (by norm_num) (hb _) cBig_too_big (hb _) cBig_too_big (hb _) cBig_too_big
    (hb _) cBig_too_big

/-- C9: a collaborator failure (rasterizer, encoder, or document
assembly) at any point aborts the entire reduction as a hard failure: the
underlying cause is propagated and no bytes — partial or previously
built — are delivered, both in the fixed-quality mode and in the target
mode (where a failing candidate, reached after every earlier candidate
was rejected, ends the whole search). -/
theorem claim9_collaborator_failure_aborts :
    (∀ (c : Collab) (doc : List PdfPage) (q : ℚ) (e : ℕ),
      (performPdfRenderingCompression c doc q).2 = .error e →
      (compressPDFByRenderingQuality c doc q).2 = .failure e ∧
      deliveredQual (compressPDFByRenderingQuality c doc q).2 = none) ∧
    (∀ (c : Collab) (doc : List PdfPage) (t : ℕ) (e : ℕ) (l1 : List ℚ) (qf : ℚ)
      (l2 : List ℚ),
      10 ≤ t →
      qualities = l1 ++ qf :: l2 →
      (∀ q2 ∈ l1, ∃ b, (performPdfRenderingCompression c doc q2).2 = .ok b ∧
        ¬ roundKB b.length ≤ t) →
      (performPdfRenderingCompression c doc qf).2 = .error e →
      (compressPDFByTargetRendering c doc (some t)).2 = .failure e ∧
      deliveredTarget (compressPDFByTargetRendering c doc (some t)).2 = none) := by
  constructor
  · intro c doc q e he
    have h : (compressPDFByRenderingQuality c doc q).2 = .failure e := by
      rw [compressPDFByRenderingQuality]
      cases hp : performPdfRenderingCompression c doc q with
      | mk evs r =>
          rw [hp] at he
          simp only at he
          subst he
          rfl
    exact ⟨h, by rw [h]; rfl⟩
  · intro c doc t e l1 qf l2 h10 hsplit hrej he
    have hloop : ∀ (l : List ℚ) (prev : Option (Bytes × ℕ)),
        (∀ q2 ∈ l, ∃ b, (performPdfRenderingCompression c doc q2).2 = .ok b ∧
          ¬ roundKB b.length ≤ t) →
        (targetLoop c doc t (l ++ qf :: l2) prev).2 = .failure e := by
      intro l
      induction l with
      | nil =>
          intro prev _
          rw [List.nil_append, targetLoop_step_error c doc t qf l2 prev e he]
      | cons q2 rest ih =>
          intro prev hall
          obtain ⟨b, hb, hs⟩ := hall q2 (List.mem_cons_self _ _)
          rw [List.cons_append, targetLoop_step_reject c doc t q2 _ prev b hb hs]
          exact ih _ (fun q3 hq3 => hall q3 (List.mem_cons_of_mem _ hq3))
    have h : (compressPDFByTargetRendering c doc (some t)).2 = .failure e := by
      rw [compressPDFByTargetRendering, if_neg (by omega), hsplit]
      exact hloop l1 none hrej
    exact ⟨h, by rw [h]; rfl⟩

/-- Witness for C9 with the always-failing rasterizer `cFail`: the first
candidate's build fails with cause 7, which both modes propagate without
delivering bytes. -/
theorem claim9_collaborator_failure_aborts_witness :
    ((compressPDFByRenderingQuality cFail [page1] (1/2)).2 = .failure 7 ∧
      deliveredQual (compressPDFByRenderingQuality cFail [page1] (1/2)).2 = none) ∧
    ((compressPDFByTargetRendering cFail [page1] (some 10)).2 = .failure 7 ∧
      deliveredTarget (compressPDFByTargetRendering cFail [page1] (some 10)).2 = none) := by
  have he : ∀ q : ℚ, (performPdfRenderingCompression cFail [page1] q).2 = .error 7 := by
    intro q
    rfl
  exact ⟨claim9_collaborator_failure_aborts.1 cFail [page1] (1/2) 7 (he _),
    claim9_collaborator_failure_aborts.2 cFail [page1] 10 7 [] (9/10) [7/10, 1/2, 3/10]
      (by norm_num) rfl (by intro q2 hq2; simp at hq2) (he _)⟩

/-! ## Counting lemmas for the rasterize-once claim -/

/-- The raster loop never records an image decode. -/
theorem rasterLoop_count_decode (enc : ℚ → JsStr) (t : ℕ) (fuel : ℕ) (q : ℚ)
    (last : Option JsStr) :
    ((rasterLoop enc t fuel q last).1.count Ev.decodeImage) = 0 := by
  rw [List.count_eq_zero]
  intro hm
  obtain ⟨q2, hq2⟩ := rasterLoop_evs_encode enc t fuel q last Ev.decodeImage hm
  exact Ev.noConfusion hq2

/-- The page loop's trace holds exactly one render event for every
1-based page number in range, and none out of range. -/
theorem pageEvs_count_render (q : ℚ) (j : ℕ) :
    ∀ (doc : List PdfPage) (i : ℕ),
      ((pageEvs q i doc).count (Ev.render j))
        = if i ≤ j ∧ j < i + doc.length then 1 else 0 := by
  intro doc
  induction doc with
  | nil =>
      intro i
      simp only [pageEvs, List.count_nil, List.length_nil]
      rw [if_neg (by omega)]
  | cons p rest ih =>
      intro i
      simp [pageEvs, List.count_cons, ih (i + 1)]
      split_ifs <;> omega

/-- The page loop's trace holds no candidate-head event. -/
theorem pageEvs_countP_attempt (q : ℚ) :
    ∀ (doc : List PdfPage) (i : ℕ), ((pageEvs q i doc).countP isAttempt) = 0 := by
  intro doc
  induction doc with
  | nil => intro i; rfl
  | cons p rest ih =>
      intro i
      simp only [pageEvs, List.countP_cons, ih (i + 1)]
      rfl

/-- A failure-free document build renders each in-range page exactly
once. -/
theorem perform_pure_count_render (r : PdfPage → ℚ → PixelBuffer)
    (e : PixelBuffer → ℚ → Bytes) (m : Bytes → Bytes) (s : List OutPage → Bytes)
    (doc : List PdfPage) (q : ℚ) (j : ℕ) :
    ((performPdfRenderingCompression (pureCollab r e m s) doc q).1.count (Ev.render j))
      = if 1 ≤ j ∧ j < 1 + doc.length then 1 else 0 := by
  rw [perform_pure]
  simp [List.count_append, pageEvs_count_render, List.count_cons]

/-- A failure-free document build records no candidate-head event. -/
theorem perform_pure_countP_attempt (r : PdfPage → ℚ → PixelBuffer)
    (e : PixelBuffer → ℚ → Bytes) (m : Bytes → Bytes) (s : List OutPage → Bytes)
    (doc : List PdfPage) (q : ℚ) :
    ((performPdfRenderingCompression (pureCollab r e m s) doc q).1.countP isAttempt) = 0 := by
  rw [perform_pure]
  simp only [List.countP_append, pageEvs_countP_attempt]
  rfl

/-- Over any candidate list, the failure-free target loop renders each
in-range page exactly once per attempted candidate: the render count of a
page equals the number of candidate-head events in the trace. -/
theorem targetLoop_render_attempts (r : PdfPage → ℚ → PixelBuffer)
    (e : PixelBuffer → ℚ → Bytes) (m : Bytes → Bytes) (s : List OutPage → Bytes)
    (doc : List PdfPage) (t : ℕ) (i : ℕ) (hi : i < doc.length) :
    ∀ (qs : List ℚ) (prev : Option (Bytes × ℕ)),
      ((targetLoop (pureCollab r e m s) doc t qs prev).1.count (Ev.render (i + 1)))
        = ((targetLoop (pureCollab r e m s) doc t qs prev).1.countP isAttempt) := by
  intro qs
  induction qs with
  | nil => intro prev; rfl
  | cons q rest ih =>
      intro prev
      have hb : (performPdfRenderingCompression (pureCollab r e m s) doc q).2
          = .ok (s (doc.map (outPageOf r e m q))) := by rw [perform_pure]
      by_cases hsz : roundKB (s (doc.map (outPageOf r e m q))).length ≤ t
      · rw [targetLoop_step_accept _ _ _ _ _ _ _ hb hsz]
        simp [List.count_cons, List.countP_cons, perform_pure_count_render,
          perform_pure_countP_attempt, isAttempt]
        omega
      · rw [targetLoop_step_reject _ _ _ _ _ _ _ hb hsz]
        have ih2 := ih (some (s (doc.map (outPageOf r e m q)),
          roundKB (s (doc.map (outPageOf r e m q))).length))
        simp [List.count_cons, List.count_append, List.countP_cons,
          List.countP_append, perform_pure_count_render, perform_pure_countP_attempt,
          isAttempt] at ih2 ⊢
        split_ifs <;> omega

/-- C2 counterexample: the claim that a reduction run rasterizes each
page exactly once is false for the document target search.  On a one-page
document whose builds all measure 20 KB against a 10 KB target, all four
candidate qualities are attempted and page 1 is rendered four times — once
per candidate — not once per run. -/
theorem claim2_rerasterized_counterexample :
    ((compressPDFByTargetRendering cBig [page1] (some 10)).1.count (Ev.render 1)) = 4 ∧
      (4 : ℕ) ≠ 1 := by
  have hb : ∀ q : ℚ, (performPdfRenderingCompression cBig [page1] q).2 = .ok b9c :=
    fun q => by rw [cBig_perform]
  refine ⟨?_, by decide⟩
  rw [compressPDFByTargetRendering, if_neg (by norm_num), qualities,
    targetLoop_step_reject cBig [page1] 10 (9/10) _ none b9c (hb _) cBig_too_big,
    targetLoop_step_reject cBig [page1] 10 (7/10) _ _ b9c (hb _) cBig_too_big,
    targetLoop_step_reject cBig [page1] 10 (1/2) _ _ b9c (hb _) cBig_too_big,
    targetLoop_step_reject cBig [page1] 10 (3/10) _ _ b9c (hb _) cBig_too_big,
    targetLoop_exhausted]
  simp only [cBig_perform]
  simp [List.count_cons, List.count_append, List.count_nil]

/-- C2 amended: the raster search decodes its image into a pixel buffer
exactly once per run, and its quality loop only re-encodes; but the
document target search re-rasterizes: every in-range page is rendered
exactly once per attempted candidate quality (the render count of a page
equals the number of candidates attempted in the trace), not once per
run. -/
theorem claim2_rasterize_once_per_candidate :
    (∀ (enc : ℚ → JsStr) (t : ℕ) (fuel : ℕ), 10 ≤ t →
      ((compressImageToTarget enc (some t) fuel).1.count Ev.decodeImage) = 1) ∧
    (∀ (r : PdfPage → ℚ → PixelBuffer) (e : PixelBuffer → ℚ → Bytes)
      (m : Bytes → Bytes) (s : List OutPage → Bytes) (doc : List PdfPage)
      (t : ℕ) (i : ℕ), 10 ≤ t → i < doc.length →
      ((compressPDFByTargetRendering (pureCollab r e m s) doc (some t)).1.count
          (Ev.render (i + 1)))
        = ((compressPDFByTargetRendering (pureCollab r e m s) doc (some t)).1.countP
            isAttempt)) := by
  constructor
  · intro enc t fuel h10
    rw [compressImageToTarget, if_neg (by omega)]
    cases hrl : rasterLoop enc t fuel (19/20) none with
    | mk evs ex =>
        have hz : evs.count Ev.decodeImage = 0 := by
          have := rasterLoop_count_decode enc t fuel (19/20) none
          rw [hrl] at this
          exact this
        cases ex with
        | outOfFuel => simp [List.count_cons, hz]
        | broke q result => simp [List.count_cons, hz]
        | condExit q last => simp [List.count_cons, hz]
  · intro r e m s doc t i h10 hi
    rw [compressPDFByTargetRendering, if_neg (by omega)]
    exact targetLoop_render_attempts r e m s doc t i hi qualities none

/-- Witness for the amended C2 theorem: the concrete raster run on
`enc3` decodes once, and on the concrete one-page document the render
count of page 1 equals the number of attempted candidates. -/
theorem claim2_rasterize_once_per_candidate_witness :
    ((compressImageToTarget enc3 (some 10) 1).1.count Ev.decodeImage) = 1 ∧
      ((compressPDFByTargetRendering (pureCollab rePure enc57f id joinSave)
          [page1] (some 10)).1.count (Ev.render 1))
        = ((compressPDFByTargetRendering (pureCollab rePure enc57f id joinSave)
            [page1] (some 10)).1.countP isAttempt) :=
  ⟨claim2_rasterize_once_per_candidate.1 enc3 10 1 (by norm_num),
    claim2_rasterize_once_per_candidate.2 rePure enc57f id joinSave [page1] 10 0
      (by norm_num) (by norm_num)⟩

end QFF
